import Mathlib

/-!
# slogcobra: handler construction from configuration

A shallow embedding of `src/slogcobra.go` (type `Config`, function `newHandler`,
the callback registered by `init` and the defaults registered by `init`),
followed by the theorems that settle the claims C1 to C10.

The packages the file imports are not part of the sources. They enter the
embedding as follows.

* `io`, `os` standard streams, `lumberjack.Logger`, `slog` handlers: plain
  data (constructors and records) holding exactly the values the source
  passes to them.
* `filepath.Dir`, `os.MkdirAll`, `storageunit.Megabyte`: fields of the
  environment `Env`, over an arbitrary type of filesystem states.
* `time.Duration`: a count of nanoseconds, with the constants of package time.
* `storageunit.Bytes.Megabytes`: modelled from the spec (see `Bytes.Megabytes`).
* Go `int` and `int64` are taken as mathematical integers: the only arithmetic
  in the source is one division by a positive constant, which cannot overflow.
-/

namespace Slogcobra

/-! ## Data model -/

/-- Record `Config` of the source, lines 18 to 26. `FileSize` is a byte count
(`storageunit.Bytes`), `FileDuration` a nanosecond count (`time.Duration`). -/
structure Config where
  Format : String
  Level : String
  FilePath : String
  FileCount : Int
  FileSize : Int
  FileDuration : Int
  FileCompress : Bool
deriving DecidableEq, Repr

/-- Record `lumberjack.Logger`, with the fields the source sets. -/
structure Logger where
  Filename : String
  MaxSize : Int
  MaxAge : Int
  MaxBackups : Int
  LocalTime : Bool
  Compress : Bool
deriving DecidableEq, Repr

/-- The values an `io.Writer` takes in `newHandler`: `io.Discard`, `os.Stdout`,
`os.Stderr` or a pointer to a `lumberjack.Logger`. -/
inductive Writer where
  | Discard
  | Stdout
  | Stderr
  | Lumberjack (l : Logger)
deriving DecidableEq, Repr

/-- Type `slog.Level`: an integer severity. -/
abbrev Level := Int

/-- Constant `slog.LevelDebug`. -/
def LevelDebug : Level := -4

/-- Constant `slog.LevelInfo`, the zero value of `slog.Level`. -/
def LevelInfo : Level := 0

/-- Constant `slog.LevelWarn`. -/
def LevelWarn : Level := 4

/-- Constant `slog.LevelError`. -/
def LevelError : Level := 8

/-- Record `slog.HandlerOptions`, with the one field the source sets. -/
structure HandlerOptions where
  Level : Level
deriving DecidableEq, Repr

/-- A non-nil `slog.Handler` as built by `slog.NewJSONHandler` or
`slog.NewTextHandler`: the encoding, the writer and the options given. -/
inductive Handler where
  | JSONHandler (w : Writer) (opts : HandlerOptions)
  | TextHandler (w : Writer) (opts : HandlerOptions)
deriving DecidableEq, Repr

/-- The writer a handler is bound to. -/
def Handler.writer : Handler → Writer
  | .JSONHandler w _ => w
  | .TextHandler w _ => w

/-- The minimum-severity threshold of a handler: the `Level` of its options. -/
def Handler.threshold : Handler → Level
  | .JSONHandler _ opts => opts.Level
  | .TextHandler _ opts => opts.Level

/-- Whether the handler is a JSON handler. -/
def Handler.isJSON : Handler → Bool
  | .JSONHandler _ _ => true
  | .TextHandler _ _ => false

/-- Whether the handler is a text handler. -/
def Handler.isText : Handler → Bool
  | .JSONHandler _ _ => false
  | .TextHandler _ _ => true

/-- A non-nil Go `error` as `newHandler` can return it: the error of
`os.MkdirAll`, or the value of `fmt.Errorf` with its message. -/
inductive Error (ε : Type) where
  | mkdir (e : ε)
  | errorf (msg : String)
deriving DecidableEq, Repr

/-! ## Package time -/

namespace time

/-- Constant `time.Nanosecond`. -/
def Nanosecond : Int := 1

/-- Constant `time.Microsecond`. -/
def Microsecond : Int := 1000 * Nanosecond

/-- Constant `time.Millisecond`. -/
def Millisecond : Int := 1000 * Microsecond

/-- Constant `time.Second`. -/
def Second : Int := 1000 * Millisecond

/-- Constant `time.Minute`. -/
def Minute : Int := 60 * Second

/-- Constant `time.Hour`. -/
def Hour : Int := 60 * Minute

end time

/-! ## Environment -/

/-- The functions and constants of other packages that `newHandler` calls,
over a type `σ` of filesystem states and a type `ε` of operating-system errors.
`MkdirAll path perm` runs on a state and gives the error, if any, and the
state it leaves. -/
structure Env (σ ε : Type) where
  Dir : String → String
  MkdirAll : String → Nat → σ → Option ε × σ
  Megabyte : Int

/-- Modelled from the spec: method `Megabytes` of `storageunit.Bytes`, a package
that is not among the sources. The spec derives the size into megabytes "by
truncating division" with "fractional remainders silently dropped" by the
conversion to `int`, and maps 250 MB to 250: the method is the byte count
divided by the unit `storageunit.Megabyte`, as an exact number. -/
def Bytes.Megabytes (megabyte : Int) (b : Int) : ℚ := (b : ℚ) / (megabyte : ℚ)

/-- Go conversion `int(x)` of a non-integer number: the fraction is discarded
(truncation toward zero). -/
def goInt (q : ℚ) : Int := if 0 ≤ q then ⌊q⌋ else ⌈q⌉

/-! ## newHandler -/

/-- Lines 33 to 60 of `newHandler`: the switch on `conf.FilePath` that assigns
`out`, or returns the error of `os.MkdirAll`. -/
def resolveOut {σ ε : Type} (env : Env σ ε) (conf : Config) (fs : σ) :
    Except ε Writer × σ :=
  if conf.FilePath = "" ∨ conf.FilePath = "/dev/null" then (.ok .Discard, fs)
  else if conf.FilePath = "stdout" then (.ok .Stdout, fs)
  else if conf.FilePath = "stderr" then (.ok .Stderr, fs)
  else
    match env.MkdirAll (env.Dir conf.FilePath) 0o755 fs with
    | (some err, fs1) => (.error err, fs1)
    | (none, fs1) =>
      let maxSize : Int :=
        if conf.FileSize ≠ 0 then goInt (Bytes.Megabytes env.Megabyte conf.FileSize) else 100
      let maxAge : Int :=
        if conf.FileDuration ≠ 0 then Int.tdiv conf.FileDuration (time.Hour * 24) else 1
      (.ok (.Lumberjack
        { Filename := conf.FilePath
          MaxBackups := conf.FileCount
          MaxSize := maxSize
          MaxAge := maxAge
          Compress := conf.FileCompress
          LocalTime := true }), fs1)

/-- Function `newHandler`, lines 28 to 75: the pair of Go results (handler,
error), `none` standing for nil, and the filesystem state left behind. The
variable `lvl` is declared and never assigned: it holds the zero value. -/
def newHandler {σ ε : Type} (env : Env σ ε) (conf : Config) (fs : σ) :
    (Option Handler × Option (Error ε)) × σ :=
  let lvl : Level := 0
  match resolveOut env conf fs with
  | (.error err, fs1) => ((none, some (.mkdir err)), fs1)
  | (.ok out, fs1) =>
    if conf.Format = "json" then
      ((some (.JSONHandler out { Level := lvl }), none), fs1)
    else if conf.Format = "text" ∨ conf.Format = "" then
      ((some (.TextHandler out { Level := lvl }), none), fs1)
    else
      ((none, some (.errorf ("unknown log format: " ++ conf.Format))), fs1)

/-- The callback that `init` registers with `cobra.OnInitialize`, lines 82 to
99, from the decoded configuration on: `newHandler`, then a panic with its
error, or else its handler (nil or not) installed as the default logger. -/
def onInitialize {σ ε : Type} (env : Env σ ε) (conf : Config) (fs : σ) :
    Except (Error ε) (Option Handler) × σ :=
  match newHandler env conf fs with
  | ((_, some err), fs1) => (.error err, fs1)
  | ((handler, none), fs1) => (.ok handler, fs1)

/-- The configuration `init` registers as the default of key "log", lines 100
to 108. -/
def defaultConfig (megabyte : Int) : Config :=
  { Format := "text"
    Level := "info"
    FilePath := "stderr"
    FileCount := 10
    FileSize := megabyte * 100
    FileDuration := time.Hour * 24 * 30
    FileCompress := true }

/-! ## Vocabulary of the statements -/

/-- Whether `FilePath` selects a file: it is none of the four reserved names. -/
def isFilePath (p : String) : Bool :=
  !(p = "" ∨ p = "/dev/null" ∨ p = "stdout" ∨ p = "stderr")

/-- Whether `Format` is one of the three recognised values. -/
def isKnownFormat (f : String) : Bool :=
  f = "json" ∨ f = "text" ∨ f = ""

/-! ## A concrete environment

An instance of `Env` on which the model is evaluated: the filesystem state is
the log of the directory-creation requests received so far. -/

/-- The elements of a path between its slashes. -/
def splitSlash : List Char → List (List Char)
  | [] => [[]]
  | c :: cs =>
    match splitSlash cs with
    | [] => [[c]]
    | e :: es => if c = '/' then [] :: e :: es else (c :: e) :: es

/-- One element pushed on the cleaned elements (last element first), by the
lexical rules of `filepath.Clean`: empty and "." elements vanish, ".." removes
the element before it, is dropped at the root and is kept at the start of a
relative path. -/
def cleanStep (rooted : Bool) (stack : List (List Char)) (e : List Char) :
    List (List Char) :=
  if e = [] ∨ e = ['.'] then stack
  else if e = ['.', '.'] then
    match stack with
    | [] => if rooted then [] else [e]
    | top :: rest => if top = ['.', '.'] then e :: stack else rest
  else e :: stack

/-- Function `filepath.Dir` on a Unix system, by its documented rules: the
path up to its last slash, cleaned; "." when nothing is left. -/
def unixDir (path : String) : String :=
  let rooted : Bool := path.data.head? = some '/'
  let elems := (splitSlash path.data).dropLast
  let kept := (elems.foldl (cleanStep rooted) []).reverse
  let body := String.mk (List.intercalate ['/'] kept)
  let out := (if rooted then "/" else "") ++ body
  if out = "" then "." else out

/-- A filesystem that logs each request `MkdirAll path perm` and refuses the
paths that `denied` selects. -/
def recorder (denied : String → Bool) (megabyte : Int) :
    Env (List (String × Nat)) String :=
  { Dir := unixDir
    MkdirAll := fun path perm log =>
      (if denied path then some ("mkdir " ++ path ++ ": permission denied") else none,
        log ++ [(path, perm)])
    Megabyte := megabyte }

/-- The recorder that refuses nothing, with a megabyte of 1000000 bytes. -/
def sampleEnv : Env (List (String × Nat)) String :=
  recorder (fun _ => false) 1000000

/-- The recorder that refuses every request. -/
def denyEnv : Env (List (String × Nat)) String :=
  recorder (fun _ => true) 1000000

/-- The configuration of the end-to-end example. -/
def exampleConfig : Config :=
  { Format := "json"
    Level := "info"
    FilePath := "/tmp/app/app.log"
    FileCount := 5
    FileSize := 0
    FileDuration := 0
    FileCompress := true }

/-! ## Shared lemmas -/

theorem isFilePath_iff (p : String) :
    isFilePath p = true ↔ p ≠ "" ∧ p ≠ "/dev/null" ∧ p ≠ "stdout" ∧ p ≠ "stderr" := by
  simp [isFilePath]

theorem isFilePath_eq_false_iff (p : String) :
    isFilePath p = false ↔ p = "" ∨ p = "/dev/null" ∨ p = "stdout" ∨ p = "stderr" := by
  simp only [isFilePath, Bool.not_eq_false_eq_eq_true, decide_eq_true_eq]

theorem isKnownFormat_iff (f : String) :
    isKnownFormat f = true ↔ f = "json" ∨ f = "text" ∨ f = "" := by
  simp [isKnownFormat]

theorem resolveOut_discard {σ ε : Type} (env : Env σ ε) (conf : Config) (fs : σ)
    (h : conf.FilePath = "" ∨ conf.FilePath = "/dev/null") :
    resolveOut env conf fs = (.ok .Discard, fs) := by
  unfold resolveOut
  rw [if_pos h]

theorem resolveOut_stdout {σ ε : Type} (env : Env σ ε) (conf : Config) (fs : σ)
    (h : conf.FilePath = "stdout") :
    resolveOut env conf fs = (.ok .Stdout, fs) := by
  unfold resolveOut
  simp [h]

theorem resolveOut_stderr {σ ε : Type} (env : Env σ ε) (conf : Config) (fs : σ)
    (h : conf.FilePath = "stderr") :
    resolveOut env conf fs = (.ok .Stderr, fs) := by
  unfold resolveOut
  simp [h]

/-- On a reserved name the filesystem state is returned as it was given. -/
theorem resolveOut_reserved_state {σ ε : Type} (env : Env σ ε) (conf : Config) (fs : σ)
    (h : isFilePath conf.FilePath = false) :
    (resolveOut env conf fs).2 = fs := by
  rcases (isFilePath_eq_false_iff _).1 h with h | h | h | h
  · rw [resolveOut_discard env conf fs (Or.inl h)]
  · rw [resolveOut_discard env conf fs (Or.inr h)]
  · rw [resolveOut_stdout env conf fs h]
  · rw [resolveOut_stderr env conf fs h]

/-- On a file path whose directory is created, `out` is the rotating writer
with the fields of lines 52 to 59. -/
theorem resolveOut_file_ok {σ ε : Type} (env : Env σ ε) (conf : Config) (fs fs1 : σ)
    (hp : isFilePath conf.FilePath = true)
    (hm : env.MkdirAll (env.Dir conf.FilePath) 0o755 fs = (none, fs1)) :
    resolveOut env conf fs =
      (.ok (.Lumberjack
        { Filename := conf.FilePath
          MaxBackups := conf.FileCount
          MaxSize :=
            if conf.FileSize ≠ 0 then goInt (Bytes.Megabytes env.Megabyte conf.FileSize)
            else 100
          MaxAge :=
            if conf.FileDuration ≠ 0 then Int.tdiv conf.FileDuration (time.Hour * 24) else 1
          Compress := conf.FileCompress
          LocalTime := true }), fs1) := by
  obtain ⟨h1, h2, h3, h4⟩ := (isFilePath_iff _).1 hp
  unfold resolveOut
  simp only [h1, h2, h3, h4, or_self, if_false, hm]

/-- On a file path whose directory cannot be created, the error of
`os.MkdirAll` is the result. -/
theorem resolveOut_file_fail {σ ε : Type} (env : Env σ ε) (conf : Config) (fs fs1 : σ)
    (e : ε) (hp : isFilePath conf.FilePath = true)
    (hm : env.MkdirAll (env.Dir conf.FilePath) 0o755 fs = (some e, fs1)) :
    resolveOut env conf fs = (.error e, fs1) := by
  obtain ⟨h1, h2, h3, h4⟩ := (isFilePath_iff _).1 hp
  unfold resolveOut
  simp only [h1, h2, h3, h4, or_self, if_false, hm]

/-- On a file path the state left is the one `os.MkdirAll` leaves. -/
theorem resolveOut_file_state {σ ε : Type} (env : Env σ ε) (conf : Config) (fs : σ)
    (hp : isFilePath conf.FilePath = true) :
    (resolveOut env conf fs).2 = (env.MkdirAll (env.Dir conf.FilePath) 0o755 fs).2 := by
  rcases hm : env.MkdirAll (env.Dir conf.FilePath) 0o755 fs with ⟨_ | e, fs1⟩
  · rw [resolveOut_file_ok env conf fs fs1 hp hm]
  · rw [resolveOut_file_fail env conf fs fs1 e hp hm]

/-- The result of `resolveOut` is an error exactly on a file path whose
directory cannot be created. -/
theorem resolveOut_error_iff {σ ε : Type} (env : Env σ ε) (conf : Config) (fs : σ) :
    (∃ e, (resolveOut env conf fs).1 = .error e) ↔
      (isFilePath conf.FilePath = true ∧
        (env.MkdirAll (env.Dir conf.FilePath) 0o755 fs).1.isSome = true) := by
  cases hp : isFilePath conf.FilePath
  · rcases (isFilePath_eq_false_iff _).1 hp with h | h | h | h
    · simp [resolveOut_discard env conf fs (Or.inl h)]
    · simp [resolveOut_discard env conf fs (Or.inr h)]
    · simp [resolveOut_stdout env conf fs h]
    · simp [resolveOut_stderr env conf fs h]
  · rcases hm : env.MkdirAll (env.Dir conf.FilePath) 0o755 fs with ⟨_ | e, fs1⟩
    · simp [resolveOut_file_ok env conf fs fs1 hp hm]
    · simp [resolveOut_file_fail env conf fs fs1 e hp hm]

/-- The state `newHandler` leaves is the one `resolveOut` leaves. -/
theorem newHandler_state {σ ε : Type} (env : Env σ ε) (conf : Config) (fs : σ) :
    (newHandler env conf fs).2 = (resolveOut env conf fs).2 := by
  unfold newHandler
  rcases resolveOut env conf fs with ⟨_ | out, fs1⟩
  · rfl
  · dsimp only
    split_ifs <;> rfl

/-- When `resolveOut` fails, `newHandler` returns its error and no handler. -/
theorem newHandler_of_error {σ ε : Type} (env : Env σ ε) (conf : Config) (fs : σ) (e : ε)
    (h : (resolveOut env conf fs).1 = .error e) :
    (newHandler env conf fs).1 = (none, some (.mkdir e)) := by
  unfold newHandler
  rcases hr : resolveOut env conf fs with ⟨_ | out, fs1⟩
  · rw [hr] at h
    cases h
    rfl
  · rw [hr] at h
    cases h

/-- When `resolveOut` gives a writer, `newHandler` is decided by `Format`. -/
theorem newHandler_of_ok {σ ε : Type} (env : Env σ ε) (conf : Config) (fs : σ) (out : Writer)
    (h : (resolveOut env conf fs).1 = .ok out) :
    (newHandler env conf fs).1 =
      if conf.Format = "json" then (some (.JSONHandler out { Level := 0 }), none)
      else if conf.Format = "text" ∨ conf.Format = "" then
        (some (.TextHandler out { Level := 0 }), none)
      else (none, some (.errorf ("unknown log format: " ++ conf.Format))) := by
  unfold newHandler
  rcases hr : resolveOut env conf fs with ⟨_ | w, fs1⟩
  · rw [hr] at h
    cases h
  · rw [hr] at h
    cases h
    dsimp only
    split_ifs <;> rfl

/-- The result of `resolveOut` is an error or a writer. -/
theorem resolveOut_cases {σ ε : Type} (env : Env σ ε) (conf : Config) (fs : σ) :
    (∃ e, (resolveOut env conf fs).1 = .error e) ∨
      (∃ out, (resolveOut env conf fs).1 = .ok out) := by
  rcases (resolveOut env conf fs).1 with e | out
  · exact Or.inl ⟨e, rfl⟩
  · exact Or.inr ⟨out, rfl⟩

/-! ## Arithmetic of the two derived parameters -/

/-- The floor of an integer quotient by a positive integer is the integer
quotient. -/
theorem floor_intCast_div_pos (s m : Int) (hm : 0 < m) :
    ⌊((s : ℚ) / (m : ℚ))⌋ = s / m := by
  obtain ⟨n, rfl⟩ := Int.eq_ofNat_of_zero_le hm.le
  exact Rat.floor_intCast_div_natCast s n

/-- With a positive unit, the truncated number of megabytes is the quotient of
the byte count by the unit, rounded toward zero. -/
theorem goInt_Megabytes (m s : Int) (hm : 0 < m) :
    goInt (Bytes.Megabytes m s) = Int.tdiv s m := by
  have hmq : (0 : ℚ) < (m : ℚ) := by exact_mod_cast hm
  unfold goInt Bytes.Megabytes
  by_cases hs : 0 ≤ s
  · have hq : (0 : ℚ) ≤ (s : ℚ) / (m : ℚ) := div_nonneg (by exact_mod_cast hs) hmq.le
    rw [if_pos hq, floor_intCast_div_pos s m hm, Int.tdiv_eq_ediv hs hm.le]
  · have hs1 : s < 0 := not_le.1 hs
    have hq : ¬ (0 : ℚ) ≤ (s : ℚ) / (m : ℚ) := by
      rw [not_le]
      exact div_neg_of_neg_of_pos (by exact_mod_cast hs1) hmq
    rw [if_neg hq]
    have h1 : ((s : ℚ) / (m : ℚ)) = -(((-s : Int) : ℚ) / (m : ℚ)) := by
      push_cast
      ring
    rw [h1, Int.ceil_neg, floor_intCast_div_pos (-s) m hm,
      ← Int.tdiv_eq_ediv (by omega) hm.le, Int.neg_tdiv, neg_neg]

/-- The number of nanoseconds in 24 hours. -/
theorem day_eq : time.Hour * 24 = 86400000000000 := by decide

theorem tdiv_eq_zero_of_abs_lt (a b : Int) (h1 : -b < a) (h2 : a < b) : Int.tdiv a b = 0 := by
  by_cases ha : 0 ≤ a
  · exact Int.tdiv_eq_zero_of_lt ha h2
  · have h3 : Int.tdiv (-a) b = 0 := Int.tdiv_eq_zero_of_lt (by omega) (by omega)
    rw [Int.neg_tdiv] at h3
    omega

/-! ## Destination, errors and encoding -/

/-- C1: destination resolution of `newHandler`. For every configuration, the
writer `out` is the discard sink when `FilePath` is "" or "/dev/null", standard
output when it is "stdout", standard error when it is "stderr", and for every
other `FilePath` whose directory is created a rotating-file writer whose
`Filename` is `FilePath`; the comparison is exact, so "STDOUT" and
"/dev/null/" are file paths; a handler that is returned is bound to `out`. -/
theorem newHandler_destination {σ ε : Type} (env : Env σ ε) (conf : Config) (fs : σ) :
    (conf.FilePath = "" ∨ conf.FilePath = "/dev/null" →
      (resolveOut env conf fs).1 = .ok .Discard) ∧
    (conf.FilePath = "stdout" → (resolveOut env conf fs).1 = .ok .Stdout) ∧
    (conf.FilePath = "stderr" → (resolveOut env conf fs).1 = .ok .Stderr) ∧
    (isFilePath conf.FilePath = true →
      (env.MkdirAll (env.Dir conf.FilePath) 0o755 fs).1 = none →
      ∃ l, (resolveOut env conf fs).1 = .ok (.Lumberjack l) ∧ l.Filename = conf.FilePath) ∧
    (isFilePath "STDOUT" = true ∧ isFilePath "/dev/null/" = true ∧
      isFilePath "Stderr" = true ∧ isFilePath " stdout" = true) ∧
    (∀ h, (newHandler env conf fs).1.1 = some h →
      (resolveOut env conf fs).1 = .ok h.writer) := by
  refine ⟨?_, ?_, ?_, ?_, by decide, ?_⟩
  · intro h
    rw [resolveOut_discard env conf fs h]
  · intro h
    rw [resolveOut_stdout env conf fs h]
  · intro h
    rw [resolveOut_stderr env conf fs h]
  · intro hp hm
    have hm2 : env.MkdirAll (env.Dir conf.FilePath) 0o755 fs =
        (none, (env.MkdirAll (env.Dir conf.FilePath) 0o755 fs).2) := Prod.ext hm rfl
    rw [resolveOut_file_ok env conf fs _ hp hm2]
    exact ⟨_, rfl, rfl⟩
  · intro h hh
    rcases resolveOut_cases env conf fs with ⟨e, he⟩ | ⟨out, ho⟩
    · rw [newHandler_of_error env conf fs e he] at hh
      cases hh
    · rw [newHandler_of_ok env conf fs out ho] at hh
      rw [ho]
      split_ifs at hh <;> cases hh <;> rfl

/-- Evaluation of C1 on the recording filesystem: "STDOUT" and "/dev/null/"
give rotating-file writers named after them. -/
theorem newHandler_destination_witness :
    (∃ l, (resolveOut sampleEnv { exampleConfig with FilePath := "STDOUT" } []).1 =
        .ok (.Lumberjack l) ∧ l.Filename = "STDOUT") ∧
    (∃ l, (resolveOut sampleEnv { exampleConfig with FilePath := "/dev/null/" } []).1 =
        .ok (.Lumberjack l) ∧ l.Filename = "/dev/null/") ∧
    (resolveOut sampleEnv { exampleConfig with FilePath := "/dev/null" } []).1 =
        .ok .Discard :=
  ⟨(newHandler_destination sampleEnv { exampleConfig with FilePath := "STDOUT" } []).2.2.2.1
      (by decide) (by decide),
    (newHandler_destination sampleEnv { exampleConfig with FilePath := "/dev/null/" } []).2.2.2.1
      (by decide) (by decide),
    (newHandler_destination sampleEnv { exampleConfig with FilePath := "/dev/null" } []).1
      (Or.inr (by decide))⟩

/-- C2: `newHandler` returns an error if and only if (a) `FilePath` is a file
path and the creation of its parent directory fails, or (b) `Format` is none of
"json", "text", "". With an error the handler is nil, without one it is not
nil, and in case (b) without (a) the error is the one of `fmt.Errorf` with the
message "unknown log format: " followed by `Format`. -/
theorem newHandler_error_iff {σ ε : Type} (env : Env σ ε) (conf : Config) (fs : σ) :
    (((newHandler env conf fs).1.2.isSome = true) ↔
      ((isFilePath conf.FilePath = true ∧
          (env.MkdirAll (env.Dir conf.FilePath) 0o755 fs).1.isSome = true) ∨
        ¬ (conf.Format = "json" ∨ conf.Format = "text" ∨ conf.Format = ""))) ∧
    ((newHandler env conf fs).1.2.isSome = true → (newHandler env conf fs).1.1 = none) ∧
    ((newHandler env conf fs).1.2 = none → (newHandler env conf fs).1.1.isSome = true) ∧
    (¬ (isFilePath conf.FilePath = true ∧
          (env.MkdirAll (env.Dir conf.FilePath) 0o755 fs).1.isSome = true) →
      ¬ (conf.Format = "json" ∨ conf.Format = "text" ∨ conf.Format = "") →
      (newHandler env conf fs).1.2 =
        some (.errorf ("unknown log format: " ++ conf.Format))) := by
  have key := resolveOut_error_iff env conf fs
  rcases resolveOut_cases env conf fs with ⟨e, he⟩ | ⟨out, ho⟩
  · have ha := key.1 ⟨e, he⟩
    rw [newHandler_of_error env conf fs e he]
    refine ⟨?_, ?_, ?_, ?_⟩
    · simp [ha]
    · simp
    · simp
    · intro hna
      exact absurd ha hna
  · have hna : ¬ (isFilePath conf.FilePath = true ∧
        (env.MkdirAll (env.Dir conf.FilePath) 0o755 fs).1.isSome = true) := by
      intro ha
      obtain ⟨e, he⟩ := key.2 ha
      rw [ho] at he
      cases he
    rw [newHandler_of_ok env conf fs out ho]
    by_cases h1 : conf.Format = "json"
    · simp [h1, hna]
    · by_cases h2 : conf.Format = "text" ∨ conf.Format = ""
      · rw [if_neg h1, if_pos h2]
        refine ⟨?_, ?_, ?_, ?_⟩
        · simp [hna, h2]
        · simp
        · simp
        · intro _ hb
          exact absurd (Or.inr h2) hb
      · rw [if_neg h1, if_neg h2]
        have hb : ¬ (conf.Format = "json" ∨ conf.Format = "text" ∨ conf.Format = "") := by
          rintro (h | h)
          · exact h1 h
          · exact h2 h
        refine ⟨?_, ?_, ?_, ?_⟩
        · simp [hb]
        · simp
        · simp
        · intro _ _
          rfl

/-- Evaluation of C2 on the recording filesystem: the format "xml" on a
writable path gives exactly the message "unknown log format: xml". -/
theorem newHandler_error_iff_witness :
    (newHandler sampleEnv { exampleConfig with Format := "xml" } []).1.2 =
      some (.errorf "unknown log format: xml") :=
  (newHandler_error_iff sampleEnv { exampleConfig with Format := "xml" } []).2.2.2
    (by decide) (by decide)

/-- C3: encoding resolution of `newHandler`. Whenever it returns a handler, the
handler is a JSON handler exactly when `Format` is "json" and a text handler
exactly when `Format` is "text" or ""; it is bound to the writer resolved from
`FilePath`; its kind is the same for every configuration with the same `Format`
(whatever `FilePath`, the `File` fields, the environment and the state are);
and the resolved writer is the same for configurations that differ only in
`Format` and `Level`. -/
theorem newHandler_encoding {σ ε : Type} (env : Env σ ε) (conf : Config) (fs : σ) :
    (∀ h, (newHandler env conf fs).1.1 = some h →
      (h.isJSON = true ↔ conf.Format = "json") ∧
      (h.isText = true ↔ (conf.Format = "text" ∨ conf.Format = "")) ∧
      (resolveOut env conf fs).1 = .ok h.writer) ∧
    (∀ (env2 : Env σ ε) (conf2 : Config) (fs2 : σ) (h h2 : Handler),
      conf2.Format = conf.Format →
      (newHandler env conf fs).1.1 = some h → (newHandler env2 conf2 fs2).1.1 = some h2 →
      h.isJSON = h2.isJSON ∧ h.isText = h2.isText) ∧
    (∀ (format level : String),
      resolveOut env { conf with Format := format, Level := level } fs =
        resolveOut env conf fs) := by
  have one : ∀ (envA : Env σ ε) (c : Config) (s : σ) (h : Handler),
      (newHandler envA c s).1.1 = some h →
      (h.isJSON = true ↔ c.Format = "json") ∧
      (h.isText = true ↔ (c.Format = "text" ∨ c.Format = "")) ∧
      (resolveOut envA c s).1 = .ok h.writer := by
    intro envA c s h hh
    rcases resolveOut_cases envA c s with ⟨e, he⟩ | ⟨out, ho⟩
    · rw [newHandler_of_error envA c s e he] at hh
      cases hh
    · rw [newHandler_of_ok envA c s out ho] at hh
      rw [ho]
      by_cases h1 : c.Format = "json"
      · simp only [h1, if_true] at hh
        cases hh
        simp [Handler.isJSON, Handler.isText, Handler.writer, h1]
      · by_cases h2 : c.Format = "text" ∨ c.Format = ""
        · simp only [h1, h2, if_false, if_true] at hh
          cases hh
          simp [Handler.isJSON, Handler.isText, Handler.writer, h1, h2]
        · simp only [h1, h2, if_false] at hh
          cases hh
  refine ⟨one env conf fs, ?_, ?_⟩
  · intro env2 conf2 fs2 h h2 hf hh hh2
    obtain ⟨a1, a2, _⟩ := one env conf fs h hh
    obtain ⟨b1, b2, _⟩ := one env2 conf2 fs2 h2 hh2
    rw [hf] at b1 b2
    constructor
    · exact Bool.eq_iff_iff.2 (a1.trans b1.symm)
    · exact Bool.eq_iff_iff.2 (a2.trans b2.symm)
  · intro format level
    rfl

/-- Evaluation of C3 on the recording filesystem: the end-to-end example gives
a JSON handler, and the same record with format "" a text handler. -/
theorem newHandler_encoding_witness :
    ((Handler.JSONHandler (.Lumberjack
        { Filename := "/tmp/app/app.log", MaxSize := 100, MaxAge := 1, MaxBackups := 5,
          LocalTime := true, Compress := true }) { Level := 0 }).isJSON = true ↔
      exampleConfig.Format = "json") ∧
    (resolveOut sampleEnv { exampleConfig with Format := "", Level := "debug" } [] =
      resolveOut sampleEnv exampleConfig []) :=
  ⟨((newHandler_encoding sampleEnv exampleConfig []).1 _ (by decide)).1,
    (newHandler_encoding sampleEnv exampleConfig []).2.2 "" "debug"⟩

/-! ## Rotation parameters -/

/-- The writer of a file path whose directory is created, from the first
component of the result of `os.MkdirAll`. -/
theorem resolveOut_file_writer {σ ε : Type} (env : Env σ ε) (conf : Config) (fs : σ)
    (hp : isFilePath conf.FilePath = true)
    (hm : (env.MkdirAll (env.Dir conf.FilePath) 0o755 fs).1 = none) :
    (resolveOut env conf fs).1 =
      .ok (.Lumberjack
        { Filename := conf.FilePath
          MaxBackups := conf.FileCount
          MaxSize :=
            if conf.FileSize ≠ 0 then goInt (Bytes.Megabytes env.Megabyte conf.FileSize)
            else 100
          MaxAge :=
            if conf.FileDuration ≠ 0 then Int.tdiv conf.FileDuration (time.Hour * 24) else 1
          Compress := conf.FileCompress
          LocalTime := true }) := by
  have hm2 : env.MkdirAll (env.Dir conf.FilePath) 0o755 fs =
      (none, (env.MkdirAll (env.Dir conf.FilePath) 0o755 fs).2) := Prod.ext hm rfl
  rw [resolveOut_file_ok env conf fs _ hp hm2]

/-- The floor of the number of days in a duration, `floor(d / 24h)`, as the
claims write it. -/
theorem floorDays_eq (d : Int) : ⌊((d : ℚ) / ((time.Hour * 24 : Int) : ℚ))⌋ = d / 86400000000000 := by
  rw [floor_intCast_div_pos d (time.Hour * 24) (by decide), day_eq]

/-- C4, as the claim states it, fails: for the duration of -1 nanosecond on a
file path the writer has `MaxAge` 0, while `floor(-1 / 24h)` is -1. -/
theorem maxAge_floor_counterexample :
    (resolveOut sampleEnv { exampleConfig with FileDuration := -1 } []).1 =
      .ok (.Lumberjack
        { Filename := "/tmp/app/app.log", MaxSize := 100, MaxAge := 0, MaxBackups := 5,
          LocalTime := true, Compress := true }) ∧
    ⌊(((-1 : Int) : ℚ) / ((time.Hour * 24 : Int) : ℚ))⌋ = -1 ∧
    (0 : Int) ≠ ⌊(((-1 : Int) : ℚ) / ((time.Hour * 24 : Int) : ℚ))⌋ := by
  refine ⟨rfl, ?_, ?_⟩
  · rw [floorDays_eq]
    decide
  · rw [floorDays_eq]
    decide

/-- C4, amended: for every file path whose directory is created and every
`FileDuration` d, `MaxAge` is d / 24h rounded toward zero when d is not 0,
which is `floor(d / 24h)` for every d above 0, and is 1 when d is 0; 50 hours
give 2. -/
theorem newHandler_maxAge {σ ε : Type} (env : Env σ ε) (conf : Config) (fs : σ)
    (hp : isFilePath conf.FilePath = true)
    (hm : (env.MkdirAll (env.Dir conf.FilePath) 0o755 fs).1 = none) :
    ∃ l, (resolveOut env conf fs).1 = .ok (.Lumberjack l) ∧
      (conf.FileDuration ≠ 0 → l.MaxAge = Int.tdiv conf.FileDuration (time.Hour * 24)) ∧
      (0 < conf.FileDuration →
        l.MaxAge = ⌊((conf.FileDuration : ℚ) / ((time.Hour * 24 : Int) : ℚ))⌋) ∧
      (conf.FileDuration = 0 → l.MaxAge = 1) ∧
      (conf.FileDuration = 50 * time.Hour → l.MaxAge = 2) := by
  refine ⟨_, resolveOut_file_writer env conf fs hp hm, ?_, ?_, ?_, ?_⟩
  · intro hd
    simp only [ne_eq, hd, not_false_eq_true, if_true]
  · intro hd
    have hd0 : conf.FileDuration ≠ 0 := by omega
    simp only [ne_eq, hd0, not_false_eq_true, if_true]
    rw [floor_intCast_div_pos _ (time.Hour * 24) (by decide)]
    exact Int.tdiv_eq_ediv hd.le (by decide)
  · intro hd
    simp only [ne_eq, hd, not_true_eq_false, if_false]
  · intro hd
    have h50 : (if (50 * time.Hour : Int) ≠ 0 then Int.tdiv (50 * time.Hour) (time.Hour * 24)
        else 1) = 2 := by decide
    rw [hd]
    exact h50

/-- Evaluation of the amended C4 on the recording filesystem, at 50 hours. -/
theorem newHandler_maxAge_witness :
    isFilePath "/tmp/app/app.log" = true ∧
    ∃ l, (resolveOut sampleEnv
        { exampleConfig with FileDuration := 50 * time.Hour } []).1 = .ok (.Lumberjack l) ∧
      l.MaxAge = 2 := by
  refine ⟨by decide, ?_⟩
  obtain ⟨l, h1, _, _, _, h5⟩ :=
    newHandler_maxAge sampleEnv { exampleConfig with FileDuration := 50 * time.Hour } []
      (by decide) (by decide)
  exact ⟨l, h1, h5 rfl⟩

/-- C5: for every file path whose directory is created and every `FileSize` s,
`MaxSize` is the integer truncation of `s.Megabytes()` when s is not 0 (with a
positive megabyte unit: the quotient of s by the unit, rounded toward zero) and
100 when s is 0; 250 megabytes give 250. -/
theorem newHandler_maxSize {σ ε : Type} (env : Env σ ε) (conf : Config) (fs : σ)
    (hp : isFilePath conf.FilePath = true)
    (hm : (env.MkdirAll (env.Dir conf.FilePath) 0o755 fs).1 = none) :
    ∃ l, (resolveOut env conf fs).1 = .ok (.Lumberjack l) ∧
      (conf.FileSize ≠ 0 →
        l.MaxSize = goInt (Bytes.Megabytes env.Megabyte conf.FileSize)) ∧
      (0 < env.Megabyte → conf.FileSize ≠ 0 →
        l.MaxSize = Int.tdiv conf.FileSize env.Megabyte) ∧
      (conf.FileSize = 0 → l.MaxSize = 100) ∧
      (0 < env.Megabyte → conf.FileSize = 250 * env.Megabyte → l.MaxSize = 250) := by
  refine ⟨_, resolveOut_file_writer env conf fs hp hm, ?_, ?_, ?_, ?_⟩
  · intro hs
    simp only [ne_eq, hs, not_false_eq_true, if_true]
  · intro hmb hs
    simp only [ne_eq, hs, not_false_eq_true, if_true]
    exact goInt_Megabytes _ _ hmb
  · intro hs
    simp only [ne_eq, hs, not_true_eq_false, if_false]
  · intro hmb hs
    have hs0 : conf.FileSize ≠ 0 := by
      rw [hs]
      exact Int.mul_ne_zero (by decide) hmb.ne.symm
    simp only [ne_eq, hs0, not_false_eq_true, if_true]
    rw [goInt_Megabytes _ _ hmb, hs]
    exact Int.mul_tdiv_cancel 250 hmb.ne.symm

/-- Evaluation of C5 on the recording filesystem, at 250 megabytes. -/
theorem newHandler_maxSize_witness :
    isFilePath "/tmp/app/app.log" = true ∧
    ∃ l, (resolveOut sampleEnv
        { exampleConfig with FileSize := 250 * 1000000 } []).1 = .ok (.Lumberjack l) ∧
      l.MaxSize = 250 := by
  refine ⟨by decide, ?_⟩
  obtain ⟨l, h1, _, _, _, h5⟩ :=
    newHandler_maxSize sampleEnv { exampleConfig with FileSize := 250 * 1000000 } []
      (by decide) (by decide)
  exact ⟨l, h1, h5 (by decide) rfl⟩

/-- C6: for every file path whose directory is created, the rotating writer
has `MaxBackups` equal to `FileCount` for every integer `FileCount`, `Compress`
equal to `FileCompress`, `LocalTime` true and `Filename` equal to `FilePath`,
and with a recognised `Format` the handler is returned on that writer without
an error; the end-to-end example yields a JSON handler on the writer named
"/tmp/app/app.log" with `MaxSize` 100, `MaxAge` 1, `MaxBackups` 5 and
`Compress` true. -/
theorem newHandler_passthrough {σ ε : Type} (env : Env σ ε) (conf : Config) (fs : σ)
    (hp : isFilePath conf.FilePath = true)
    (hm : (env.MkdirAll (env.Dir conf.FilePath) 0o755 fs).1 = none) :
    (∃ l, (resolveOut env conf fs).1 = .ok (.Lumberjack l) ∧
      l.MaxBackups = conf.FileCount ∧ l.Compress = conf.FileCompress ∧
      l.LocalTime = true ∧ l.Filename = conf.FilePath ∧
      (isKnownFormat conf.Format = true →
        ∃ h, (newHandler env conf fs).1 = (some h, none) ∧ h.writer = .Lumberjack l)) ∧
    (conf.Format = "json" → conf.FilePath = "/tmp/app/app.log" → conf.FileSize = 0 →
      conf.FileDuration = 0 → conf.FileCount = 5 → conf.FileCompress = true →
      (newHandler env conf fs).1 =
        (some (.JSONHandler (.Lumberjack
          { Filename := "/tmp/app/app.log", MaxSize := 100, MaxAge := 1, MaxBackups := 5,
            LocalTime := true, Compress := true }) { Level := LevelInfo }), none)) := by
  have hw := resolveOut_file_writer env conf fs hp hm
  refine ⟨⟨_, hw, rfl, rfl, rfl, rfl, ?_⟩, ?_⟩
  · intro hf
    rw [newHandler_of_ok env conf fs _ hw]
    have ht : conf.Format = "json" ∨ conf.Format = "text" ∨ conf.Format = "" :=
      (isKnownFormat_iff _).1 hf
    by_cases hj : conf.Format = "json"
    · rw [if_pos hj]
      exact ⟨_, rfl, rfl⟩
    · rw [if_neg hj, if_pos (ht.resolve_left hj)]
      exact ⟨_, rfl, rfl⟩
  · intro h1 h2 h3 h4 h5 h6
    rw [newHandler_of_ok env conf fs _ hw, if_pos h1, h2, h3, h4, h5, h6]
    rfl

/-- Evaluation of C6 on the recording filesystem: the end-to-end example. -/
theorem newHandler_passthrough_witness :
    isFilePath exampleConfig.FilePath = true ∧
    (newHandler sampleEnv exampleConfig []).1 =
      (some (.JSONHandler (.Lumberjack
        { Filename := "/tmp/app/app.log", MaxSize := 100, MaxAge := 1, MaxBackups := 5,
          LocalTime := true, Compress := true }) { Level := LevelInfo }), none) :=
  ⟨by decide,
    (newHandler_passthrough sampleEnv exampleConfig [] (by decide) (by decide)).2
      rfl rfl rfl rfl rfl rfl⟩

/-! ## Threshold, filesystem effect, defaults and fractions -/

/-- Every handler `newHandler` returns has the threshold `slog.LevelInfo`,
whatever the configuration is. -/
theorem newHandler_threshold {σ ε : Type} (env : Env σ ε) (conf : Config) (fs : σ)
    (h : Handler) (hh : (newHandler env conf fs).1.1 = some h) :
    h.threshold = LevelInfo := by
  rcases resolveOut_cases env conf fs with ⟨e, he⟩ | ⟨out, ho⟩
  · rw [newHandler_of_error env conf fs e he] at hh
    cases hh
  · rw [newHandler_of_ok env conf fs out ho] at hh
    split_ifs at hh <;> cases hh <;> rfl

/-- C7, evaluated on the code: the callback of `init` installs a handler with
the threshold `slog.LevelInfo` for the level "debug", for the level "error" and
for the level "info" alike; the two configurations that differ only in `Level`
yield the same threshold, which is neither `slog.LevelDebug` nor
`slog.LevelError`. -/
theorem onInitialize_ignores_Level :
    (onInitialize sampleEnv { defaultConfig 1000000 with Level := "debug" } []).1 =
      .ok (some (.TextHandler .Stderr { Level := LevelInfo })) ∧
    (onInitialize sampleEnv { defaultConfig 1000000 with Level := "error" } []).1 =
      .ok (some (.TextHandler .Stderr { Level := LevelInfo })) ∧
    (onInitialize sampleEnv { defaultConfig 1000000 with Level := "info" } []).1 =
      .ok (some (.TextHandler .Stderr { Level := LevelInfo })) ∧
    (Handler.TextHandler .Stderr { Level := LevelInfo }).threshold ≠ LevelDebug ∧
    (Handler.TextHandler .Stderr { Level := LevelInfo }).threshold ≠ LevelError :=
  ⟨rfl, rfl, rfl, by decide, by decide⟩

/-- C8: filesystem effect of `newHandler` on an explicit filesystem state. On
the four reserved names the state is unchanged; on a file path the state is
the one left by a single request `MkdirAll (Dir FilePath) 0755`, whatever
`Format` is, so with an unknown `Format` the request is still made although no
handler is returned, and when the request fails its error is returned whatever
`Format` is; every relation between states that `MkdirAll` respects (nothing
deleted, nothing truncated) holds between the state before and the state after;
on the recording filesystem the log grows by exactly that request on a file
path and by nothing otherwise. -/
theorem newHandler_filesystem {σ ε : Type} (env : Env σ ε) (conf : Config) (fs : σ) :
    (isFilePath conf.FilePath = false → (newHandler env conf fs).2 = fs) ∧
    (isFilePath conf.FilePath = true →
      (newHandler env conf fs).2 = (env.MkdirAll (env.Dir conf.FilePath) 0o755 fs).2) ∧
    (isFilePath conf.FilePath = true → isKnownFormat conf.Format = false →
      (newHandler env conf fs).1.1 = none ∧ (newHandler env conf fs).1.2.isSome = true ∧
      (newHandler env conf fs).2 = (env.MkdirAll (env.Dir conf.FilePath) 0o755 fs).2) ∧
    (∀ e, isFilePath conf.FilePath = true →
      (env.MkdirAll (env.Dir conf.FilePath) 0o755 fs).1 = some e →
      (newHandler env conf fs).1 = (none, some (.mkdir e))) ∧
    (∀ keeps : σ → σ → Prop, (∀ s, keeps s s) →
      (∀ path perm s, keeps s (env.MkdirAll path perm s).2) →
      keeps fs (newHandler env conf fs).2) ∧
    (∀ (denied : String → Bool) (megabyte : Int) (log : List (String × Nat)),
      (newHandler (recorder denied megabyte) conf log).2 =
        if isFilePath conf.FilePath = true then log ++ [(unixDir conf.FilePath, 0o755)]
        else log) := by
  have hfile : ∀ {τ υ : Type} (envA : Env τ υ) (s : τ), isFilePath conf.FilePath = true →
      (newHandler envA conf s).2 = (envA.MkdirAll (envA.Dir conf.FilePath) 0o755 s).2 := by
    intro τ υ envA s hp
    rw [newHandler_state, resolveOut_file_state envA conf s hp]
  have hres : ∀ {τ υ : Type} (envA : Env τ υ) (s : τ), isFilePath conf.FilePath = false →
      (newHandler envA conf s).2 = s := by
    intro τ υ envA s hp
    rw [newHandler_state, resolveOut_reserved_state envA conf s hp]
  refine ⟨hres env fs, hfile env fs, ?_, ?_, ?_, ?_⟩
  · intro hp hf
    have hb : ¬ (conf.Format = "json" ∨ conf.Format = "text" ∨ conf.Format = "") := by
      intro hk
      rw [(isKnownFormat_iff _).2 hk] at hf
      cases hf
    refine ⟨?_, ?_, hfile env fs hp⟩
    · rcases resolveOut_cases env conf fs with ⟨e, he⟩ | ⟨out, ho⟩
      · rw [newHandler_of_error env conf fs e he]
      · rw [newHandler_of_ok env conf fs out ho,
          if_neg (fun h => hb (Or.inl h)), if_neg (fun h => hb (Or.inr h))]
    · rcases resolveOut_cases env conf fs with ⟨e, he⟩ | ⟨out, ho⟩
      · rw [newHandler_of_error env conf fs e he]
        rfl
      · rw [newHandler_of_ok env conf fs out ho,
          if_neg (fun h => hb (Or.inl h)), if_neg (fun h => hb (Or.inr h))]
        rfl
  · intro e hp hm
    have hm2 : env.MkdirAll (env.Dir conf.FilePath) 0o755 fs =
        (some e, (env.MkdirAll (env.Dir conf.FilePath) 0o755 fs).2) := Prod.ext hm rfl
    apply newHandler_of_error
    rw [resolveOut_file_fail env conf fs _ e hp hm2]
  · intro keeps hrefl hmk
    cases hp : isFilePath conf.FilePath
    · rw [hres env fs hp]
      exact hrefl fs
    · rw [hfile env fs hp]
      exact hmk _ _ fs
  · intro denied megabyte log
    cases hp : isFilePath conf.FilePath
    · rw [hres _ log hp]
      simp
    · rw [hfile _ log hp]
      simp [recorder]

/-- Evaluation of C8 on the recording filesystem: with the unknown format
"xml" no handler is returned and the request for "/tmp/app" is logged; when
the request is refused its error is returned; on "stdout" nothing is logged. -/
theorem newHandler_filesystem_witness :
    ((newHandler sampleEnv { exampleConfig with Format := "xml" } []).1.1 = none ∧
      (newHandler sampleEnv { exampleConfig with Format := "xml" } []).1.2.isSome = true ∧
      (newHandler sampleEnv { exampleConfig with Format := "xml" } []).2 =
        [("/tmp/app", 0o755)]) ∧
    (newHandler denyEnv { exampleConfig with Format := "xml" } []).1 =
      (none, some (.mkdir "mkdir /tmp/app: permission denied")) ∧
    (newHandler sampleEnv { exampleConfig with FilePath := "stdout" } []).2 = [] :=
  ⟨(newHandler_filesystem sampleEnv { exampleConfig with Format := "xml" } []).2.2.1
      (by decide) (by decide),
    (newHandler_filesystem denyEnv { exampleConfig with Format := "xml" } []).2.2.2.1
      "mkdir /tmp/app: permission denied" (by decide) (by decide),
    (newHandler_filesystem sampleEnv { exampleConfig with FilePath := "stdout" } []).1
      (by decide)⟩

/-- C9: the registered default configuration, given to `newHandler`, succeeds
with a text handler on standard error and leaves the filesystem state as it
was (no directory creation); the same record with `FilePath` replaced by any
file path whose directory is created yields a rotating writer with `MaxSize`
100, `MaxAge` 30, `MaxBackups` 10 and `Compress` true. -/
theorem newHandler_defaultConfig {σ ε : Type} (env : Env σ ε) (fs : σ) :
    newHandler env (defaultConfig env.Megabyte) fs =
      ((some (.TextHandler .Stderr { Level := LevelInfo }), none), fs) ∧
    (∀ (denied : String → Bool) (megabyte : Int) (log : List (String × Nat)),
      (newHandler (recorder denied megabyte) (defaultConfig megabyte) log).2 = log) ∧
    (∀ p : String, 0 < env.Megabyte → isFilePath p = true →
      (env.MkdirAll (env.Dir p) 0o755 fs).1 = none →
      (resolveOut env { defaultConfig env.Megabyte with FilePath := p } fs).1 =
        .ok (.Lumberjack
          { Filename := p, MaxSize := 100, MaxAge := 30, MaxBackups := 10,
            LocalTime := true, Compress := true })) := by
  refine ⟨rfl, fun _ _ _ => rfl, ?_⟩
  intro p hmb hp hm
  rw [resolveOut_file_writer env { defaultConfig env.Megabyte with FilePath := p } fs hp hm]
  have hs : env.Megabyte * 100 ≠ 0 := Int.mul_ne_zero hmb.ne.symm (by decide)
  have hsize : goInt (Bytes.Megabytes env.Megabyte (env.Megabyte * 100)) = 100 := by
    rw [goInt_Megabytes _ _ hmb]
    exact Int.mul_tdiv_cancel_left 100 hmb.ne.symm
  have hage : (if (time.Hour * 24 * 30 : Int) ≠ 0 then
      Int.tdiv (time.Hour * 24 * 30) (time.Hour * 24) else 1) = 30 := by decide
  simp only [defaultConfig, ne_eq, hs, not_false_eq_true, if_true, hsize]
  rw [hage]

/-- Evaluation of C9 on the recording filesystem, at the path
"/var/log/app.log". -/
theorem newHandler_defaultConfig_witness :
    (0 : Int) < sampleEnv.Megabyte ∧ isFilePath "/var/log/app.log" = true ∧
    (resolveOut sampleEnv
        { defaultConfig sampleEnv.Megabyte with FilePath := "/var/log/app.log" } []).1 =
      .ok (.Lumberjack
        { Filename := "/var/log/app.log", MaxSize := 100, MaxAge := 30, MaxBackups := 10,
          LocalTime := true, Compress := true }) :=
  ⟨by decide, by decide,
    (newHandler_defaultConfig sampleEnv []).2.2 "/var/log/app.log"
      (by decide) (by decide) (by decide)⟩

/-- C10: fractional remainders are dropped rather than replaced by the
default. On a file path whose directory is created, every `FileDuration` d
with 0 < d < 24h gives `MaxAge` 0 and every non-zero `FileSize` of magnitude
below one megabyte gives `MaxSize` 0; a non-zero value never takes the default
branch (the result is the truncated quotient), and among the values of
magnitude below one unit the results 1 and 100 arise only from the value 0. -/
theorem newHandler_fraction_dropped {σ ε : Type} (env : Env σ ε) (conf : Config) (fs : σ)
    (hp : isFilePath conf.FilePath = true)
    (hm : (env.MkdirAll (env.Dir conf.FilePath) 0o755 fs).1 = none) :
    ∃ l, (resolveOut env conf fs).1 = .ok (.Lumberjack l) ∧
      (0 < conf.FileDuration → conf.FileDuration < 24 * time.Hour → l.MaxAge = 0) ∧
      (0 < env.Megabyte → conf.FileSize ≠ 0 → -env.Megabyte < conf.FileSize →
        conf.FileSize < env.Megabyte → l.MaxSize = 0) ∧
      (conf.FileDuration ≠ 0 → l.MaxAge = Int.tdiv conf.FileDuration (time.Hour * 24)) ∧
      (conf.FileSize ≠ 0 → l.MaxSize = goInt (Bytes.Megabytes env.Megabyte conf.FileSize)) ∧
      (-(24 * time.Hour) < conf.FileDuration → conf.FileDuration < 24 * time.Hour →
        (l.MaxAge = 1 ↔ conf.FileDuration = 0)) ∧
      (0 < env.Megabyte → -env.Megabyte < conf.FileSize → conf.FileSize < env.Megabyte →
        (l.MaxSize = 100 ↔ conf.FileSize = 0)) := by
  have hday : (24 * time.Hour : Int) = time.Hour * 24 := by decide
  refine ⟨_, resolveOut_file_writer env conf fs hp hm, ?_, ?_, ?_, ?_, ?_, ?_⟩
  · intro h1 h2
    have hd0 : conf.FileDuration ≠ 0 := by omega
    simp only [ne_eq, hd0, not_false_eq_true, if_true]
    exact Int.tdiv_eq_zero_of_lt h1.le (by rw [← hday]; exact h2)
  · intro hmb hs h1 h2
    simp only [ne_eq, hs, not_false_eq_true, if_true]
    rw [goInt_Megabytes _ _ hmb]
    exact tdiv_eq_zero_of_abs_lt _ _ h1 h2
  · intro hd
    simp only [ne_eq, hd, not_false_eq_true, if_true]
  · intro hs
    simp only [ne_eq, hs, not_false_eq_true, if_true]
  · intro h1 h2
    rw [hday] at h1 h2
    by_cases hd : conf.FileDuration = 0
    · simp only [ne_eq, hd, not_true_eq_false, if_false]
    · simp only [ne_eq, hd, not_false_eq_true, if_true, iff_false]
      rw [tdiv_eq_zero_of_abs_lt _ _ h1 h2]
      decide
  · intro hmb h1 h2
    by_cases hs : conf.FileSize = 0
    · simp only [ne_eq, hs, not_true_eq_false, if_false]
    · simp only [ne_eq, hs, not_false_eq_true, if_true, iff_false]
      rw [goInt_Megabytes _ _ hmb, tdiv_eq_zero_of_abs_lt _ _ h1 h2]
      decide

/-- Evaluation of C10 on the recording filesystem: 23 hours and 999999 bytes
give `MaxAge` 0 and `MaxSize` 0. -/
theorem newHandler_fraction_dropped_witness :
    isFilePath "/tmp/app/app.log" = true ∧
    ∃ l, (resolveOut sampleEnv
        { exampleConfig with FileDuration := 23 * time.Hour, FileSize := 999999 } []).1 =
          .ok (.Lumberjack l) ∧
      l.MaxAge = 0 ∧ l.MaxSize = 0 := by
  refine ⟨by decide, ?_⟩
  obtain ⟨l, h1, h2, h3, _⟩ :=
    newHandler_fraction_dropped sampleEnv
      { exampleConfig with FileDuration := 23 * time.Hour, FileSize := 999999 } []
      (by decide) (by decide)
  exact ⟨l, h1, h2 (by decide) (by decide),
    h3 (by decide) (by decide) (by decide) (by decide)⟩

end Slogcobra
